import Mathlib

/-!
Verification of the OncoPurpose drug-repurposing backend.

This file shallowly embeds the parts of the Python backend that the
checked properties talk about:

* `backend/confidence_scorer.py` — the rule-based confidence scorer
  (`ConfidenceScorer`), with Python floats modelled as exact rationals
  and Python strings as Lean `String` (the corpus data is ASCII, so the
  ASCII-level models of `str.lower` / `str.strip` below coincide with
  Python's behaviour on the inputs that occur).
* `backend/rate_limiter.py` — the Redis sliding-window rate limiter;
  the Redis sorted set of timestamps is modelled as a list of integer
  timestamps (member = score = timestamp, as in the Lua script).
* `backend/auth.py` — the refresh-token rotation step against the
  Redis `refresh:{jti}` records; Redis string keys/values are modelled
  as an association list with Python-dict/last-writer-wins semantics.
* `backend/data_loader.py` — index building and in-memory search over
  the Broad-hub corpus; Python dicts (insertion ordered, in-place value
  overwrite) are modelled as association lists with a faithful insert.
* `backend/integrated_api.py` — the `/search` and `/mechanism/{moa}`
  endpoints, with FastAPI `Query` parameter validation modelled
  explicitly (`ge`/`le`/`min_length` bounds).
-/

/-! ### ASCII-level models of the Python string operations used by the code -/

/-- Lowercase a single ASCII character, as Python `str.lower` does on ASCII. -/
def charLower (c : Char) : Char :=
  if 65 ≤ c.toNat ∧ c.toNat ≤ 90 then Char.ofNat (c.toNat + 32) else c

/-- Model of Python `str.lower()` (ASCII range). -/
def strToLower (s : String) : String := ⟨s.data.map charLower⟩

/-- Does the character list start with `needle`? -/
def charsStartWith : List Char → List Char → Bool
  | [], _ => true
  | _ :: _, [] => false
  | a :: as, b :: bs => a == b && charsStartWith as bs

/-- Does the character list contain `needle` as a contiguous run? -/
def charsContain (needle : List Char) : List Char → Bool
  | [] => needle.isEmpty
  | c :: rest => charsStartWith needle (c :: rest) || charsContain needle rest

/-- Model of Python `needle in hay` on strings (contiguous substring test). -/
def containsStr (hay needle : String) : Bool :=
  charsStartWith needle.data hay.data || charsContain needle.data hay.data

/-- The whitespace characters removed by Python `str.strip()` (ASCII range). -/
def isWsChar (c : Char) : Bool :=
  c == ' ' || c == '\t' || c == '\n' || c == '\r' || c == '\x0b' || c == '\x0c'

/-- Model of Python `str.strip()` (ASCII range). -/
def strTrim (s : String) : String :=
  ⟨((s.data.dropWhile isWsChar).reverse.dropWhile isWsChar).reverse⟩

/-- Helper for `splitPipe`: accumulates the current chunk (reversed). -/
def splitPipeAux (cur : List Char) : List Char → List (List Char)
  | [] => [cur.reverse]
  | c :: rest =>
    if c == '|' then cur.reverse :: splitPipeAux [] rest
    else splitPipeAux (c :: cur) rest

/-- Model of Python `s.split('|')` (so `"" ↦ [""]`, `"a||b" ↦ ["a","","b"]`). -/
def splitPipe (s : String) : List String := (splitPipeAux [] s.data).map String.mk

/-! ### `backend/confidence_scorer.py` — the rule-based confidence scorer

Python floats are modelled as exact rationals.  Every numeric literal in
the scorer is a short decimal fraction and no comparison in any checked
property sits within floating-point rounding error of a threshold, so the
rational model agrees with the float computation on everything stated
below. -/

namespace ConfidenceScorer

/-- Weight of the clinical-phase factor (`self.weights['phase']`). -/
def weight_phase : ℚ := 0.40

/-- Weight of the trial-count factor (`self.weights['trial_count']`). -/
def weight_trial_count : ℚ := 0.20

/-- Weight of the citations factor (`self.weights['citations']`). -/
def weight_citations : ℚ := 0.15

/-- Weight of the data-sources factor (`self.weights['sources']`). -/
def weight_sources : ℚ := 0.15

/-- Weight of the mechanism factor (`self.weights['mechanism']`). -/
def weight_mechanism : ℚ := 0.10

/-- The `phase_map` dict of `score_clinical_phase`, in insertion order,
with the `ClinicalPhase` enum values inlined. -/
def phase_map : List (String × ℚ) :=
  [("approved", 1.0), ("phase 3", 0.85), ("phase 2", 0.65),
   ("phase 1", 0.45), ("preclinical", 0.25)]

/-- `ClinicalPhase.UNKNOWN.value`. -/
def unknown_phase_value : ℚ := 0.1

/-- `ConfidenceScorer.score_clinical_phase`: first `phase_map` key that is a
substring of the lowercased phase string wins; otherwise `UNKNOWN`. -/
def score_clinical_phase (phase_str : String) : ℚ :=
  let lower := strToLower phase_str
  match phase_map.find? (fun p => containsStr lower p.1) with
  | some p => p.2
  | none => unknown_phase_value

/-- `ConfidenceScorer.score_trial_count`. -/
def score_trial_count (count : ℤ) : ℚ :=
  if count ≥ 100 then 1.0
  else if count ≥ 50 then 0.85
  else if count ≥ 20 then 0.70
  else if count ≥ 10 then 0.55
  else if count ≥ 5 then 0.40
  else if count ≥ 1 then 0.25
  else 0.0

/-- `ConfidenceScorer.score_citations`. -/
def score_citations (count : ℤ) : ℚ :=
  if count ≥ 300 then 1.0
  else if count ≥ 150 then 0.85
  else if count ≥ 75 then 0.70
  else if count ≥ 30 then 0.55
  else if count ≥ 10 then 0.40
  else if count ≥ 1 then 0.25
  else 0.0

/-- The `if/elif` credibility chain of `score_sources`, with the
`DataSource` enum values inlined. -/
def source_credibility (source : String) : ℚ :=
  let lower := strToLower source
  if containsStr lower "repodb" then 0.95
  else if containsStr lower "fda" then 1.0
  else if containsStr lower "clinicaltrials" then 0.90
  else if containsStr lower "redo" then 0.85
  else if containsStr lower "broad" then 0.80
  else if containsStr lower "pubmed" then 0.75
  else 0.50

/-- `ConfidenceScorer.score_sources`: average of the top three source
credibilities (`sort(reverse=True)` then `[:3]`); empty list scores 0. -/
def score_sources (sources : List String) : ℚ :=
  if sources = [] then 0
  else
    let source_scores := sources.map source_credibility
    let top_sources := (source_scores.insertionSort (· ≥ ·)).take 3
    top_sources.sum / top_sources.length

/-- `ConfidenceScorer.score_mechanism`. -/
def score_mechanism (pathways : List String) : ℚ :=
  if pathways = [] then 0.3
  else
    let pathway_count := pathways.length
    if pathway_count ≥ 4 then 1.0
    else if pathway_count = 3 then 0.85
    else if pathway_count = 2 then 0.70
    else if pathway_count = 1 then 0.55
    else 0.3

/-- The evidence dict consumed by `calculate_confidence`, with the keys the
scorer reads; `evidence.get(..., default)` is modelled by treating a missing
key as the default value for that field. -/
structure Evidence where
  phase : String
  clinical_trials : ℤ
  pubmed_citations : ℤ
  sources : List String
  pathways : List String
deriving DecidableEq, Repr

/-- `ConfidenceScorer.calculate_confidence`: weighted combination of the five
sub-scores, clamped to `[0, 1]` by `max(0.0, min(1.0, confidence))`. -/
def calculate_confidence (evidence : Evidence) : ℚ :=
  let phase_score := score_clinical_phase evidence.phase
  let trial_score := score_trial_count evidence.clinical_trials
  let citation_score := score_citations evidence.pubmed_citations
  let source_score := score_sources evidence.sources
  let mechanism_score := score_mechanism evidence.pathways
  let confidence :=
    phase_score * weight_phase +
    trial_score * weight_trial_count +
    citation_score * weight_citations +
    source_score * weight_sources +
    mechanism_score * weight_mechanism
  max 0 (min 1 confidence)

/-- `ConfidenceScorer.get_confidence_tier`. -/
def get_confidence_tier (score : ℚ) : String :=
  if score ≥ 0.85 then "Very High"
  else if score ≥ 0.70 then "High"
  else if score ≥ 0.55 then "Moderate"
  else if score ≥ 0.40 then "Low"
  else "Very Low"

/-- Round-half-to-even at integer precision, as Python `round` ties. -/
def roundHalfEven (q : ℚ) : ℤ :=
  let f := ⌊q⌋
  if q - f < 1/2 then f
  else if q - f > 1/2 then f + 1
  else if f % 2 = 0 then f else f + 1

/-- Python `round(x, 2)` on the exact rational value. -/
def round2 (q : ℚ) : ℚ := (roundHalfEven (q * 100) : ℚ) / 100

/-- One factor entry of the `explain_score` breakdown. -/
structure FactorExplanation where
  score : ℚ
  weight : ℚ
  contribution : ℚ
deriving DecidableEq, Repr

/-- The dict returned by `ConfidenceScorer.explain_score`. -/
structure ScoreExplanation where
  overall_score : ℚ
  tier : String
  clinical_phase : FactorExplanation
  trial_count : FactorExplanation
  citations : FactorExplanation
  data_sources : FactorExplanation
  mechanism : FactorExplanation
deriving DecidableEq, Repr

/-- `ConfidenceScorer.explain_score`. -/
def explain_score (evidence : Evidence) : ScoreExplanation :=
  let phase_score := score_clinical_phase evidence.phase
  let trial_score := score_trial_count evidence.clinical_trials
  let citation_score := score_citations evidence.pubmed_citations
  let source_score := score_sources evidence.sources
  let mechanism_score := score_mechanism evidence.pathways
  let total_score := calculate_confidence evidence
  { overall_score := round2 total_score
    tier := get_confidence_tier total_score
    clinical_phase :=
      ⟨round2 phase_score, weight_phase, round2 (phase_score * weight_phase)⟩
    trial_count :=
      ⟨round2 trial_score, weight_trial_count,
       round2 (trial_score * weight_trial_count)⟩
    citations :=
      ⟨round2 citation_score, weight_citations,
       round2 (citation_score * weight_citations)⟩
    data_sources :=
      ⟨round2 source_score, weight_sources,
       round2 (source_score * weight_sources)⟩
    mechanism :=
      ⟨round2 mechanism_score, weight_mechanism,
       round2 (mechanism_score * weight_mechanism)⟩ }

end ConfidenceScorer

/-! ### `backend/rate_limiter.py` — Redis-backed sliding-window rate limiter

The Redis sorted set behind `rate_limit:{tier}:{identifier}` is modelled as a
list of integer timestamps without duplicates in the positions the script can
produce: the Lua script uses the timestamp both as member and as score, so
`ZADD` of an already-present timestamp leaves the set unchanged.  Only
cardinality and membership of the set matter to the script, never the order
of the list. -/

namespace RateLimiter

/-- `RateLimitTier`. -/
inductive RateLimitTier
  | basic
  | professional
  | enterprise
deriving DecidableEq, Repr

/-- `RateLimitConfig` (tier field dropped; it only echoes the key). -/
structure RateLimitConfig where
  requests_per_hour : ℤ
  burst_limit : ℤ
  window_size : ℤ
deriving DecidableEq, Repr

/-- The `RATE_LIMITS` table: Basic 100/h, Professional 1000/h, Enterprise
`0` meaning unlimited, all with a 3600-second window. -/
def RATE_LIMITS : RateLimitTier → RateLimitConfig
  | .basic => ⟨100, 20, 3600⟩
  | .professional => ⟨1000, 100, 3600⟩
  | .enterprise => ⟨0, 0, 3600⟩

/-- Result of one execution of the `check_rate_limit` Lua script: the two
returned values and the sorted set it leaves behind. -/
structure ScriptResult where
  allowed : Bool
  count : ℤ
  state : List ℤ
deriving DecidableEq, Repr

/-- The Lua script loaded in `RateLimiter._load_scripts`, executed atomically:
`ZREMRANGEBYSCORE key -inf (now - window)` evicts timestamps `≤ now - window`;
`ZCARD` counts the rest; at or above the limit the request is denied without
touching the set; otherwise `ZADD key now now` inserts the timestamp (a no-op
when the member `now` is already present) and `EXPIRE` refreshes the TTL. -/
def check_rate_limit_script (state : List ℤ) (window limit current_time : ℤ) :
    ScriptResult :=
  let s := state.filter (fun x => decide (current_time - window < x))
  let current_count : ℤ := s.length
  if limit > 0 ∧ current_count ≥ limit then
    ⟨false, current_count, s⟩
  else
    ⟨true, current_count + 1, if current_time ∈ s then s else current_time :: s⟩

/-- The `remaining` field of the rate-limit info dict: an integer for limited
tiers, the string `"unlimited"` for Enterprise, `"unknown"` on fail-open. -/
inductive Remaining
  | num (n : ℤ)
  | unlimited
  | unknown
deriving DecidableEq, Repr

/-- The `rate_limit_info` dict returned by `check_rate_limit`. -/
structure RateLimitInfo where
  limit : ℤ
  current : ℤ
  remaining : Remaining
  reset : Option ℤ
deriving DecidableEq, Repr

/-- Outcome of `RateLimiter.check_rate_limit`: the `(is_allowed, info)` pair,
the sorted-set state after the call, and whether the degraded-mode log line
(`logger.error("Rate limit check failed", ...)`) was emitted. -/
structure CheckResult where
  allowed : Bool
  info : RateLimitInfo
  state : List ℤ
  warned : Bool
deriving DecidableEq, Repr

/-- `RateLimiter.check_rate_limit`.  `cache_up` says whether the Redis calls
succeed; when they raise, the `except` branch fails open and logs.  The
Enterprise short-circuit sits before any Redis access, so it is taken whether
or not the cache is reachable. -/
def check_rate_limit (cache_up : Bool) (state : List ℤ) (tier : RateLimitTier)
    (current_time : ℤ) : CheckResult :=
  let config := RATE_LIMITS tier
  if config.requests_per_hour = 0 then
    ⟨true, ⟨0, 0, .unlimited, none⟩, state, false⟩
  else if cache_up then
    let r := check_rate_limit_script state config.window_size
      config.requests_per_hour current_time
    ⟨r.allowed,
     ⟨config.requests_per_hour, r.count,
      .num (max 0 (config.requests_per_hour - r.count)),
      some (current_time + config.window_size)⟩,
     r.state, false⟩
  else
    ⟨true, ⟨0, 0, .unknown, none⟩, state, true⟩

/-- The `Retry-After` value computed by `RateLimitMiddleware.dispatch` from a
denial: `info.reset - now`. -/
def retry_after (info : RateLimitInfo) (now : ℤ) : Option ℤ :=
  info.reset.map (fun r => r - now)

/-- Run the atomic script once per timestamp in `ts`, threading the sorted-set
state; also reports whether every request in the run was allowed. -/
def runScriptTimes (window limit : ℤ) : List ℤ → List ℤ → List ℤ × Bool
  | s, [] => (s, true)
  | s, t :: ts =>
    let r := check_rate_limit_script s window limit t
    let rest := runScriptTimes window limit r.state ts
    (rest.1, r.allowed && rest.2)

end RateLimiter

/-! ### `backend/auth.py` — refresh-token rotation against Redis

`RedisCache.get/set/delete` over string keys are modelled on an association
list: `get` returns the stored value, `set` overwrites last-writer-wins,
`delete` removes the key. -/

namespace Auth

/-- The Redis key space as seen through `RedisCache` (string keys and
string values; the stored value is the `user_id` payload). -/
abbrev Store := List (String × String)

/-- `RedisCache.get`. -/
def cacheGet (st : Store) (k : String) : Option String :=
  match st with
  | [] => none
  | (k0, v0) :: rest => if k0 = k then some v0 else cacheGet rest k

/-- `RedisCache.delete`. -/
def cacheDelete (st : Store) (k : String) : Store :=
  st.filter (fun p => !(p.1 == k))

/-- `RedisCache.set` (last-writer-wins; TTL not modelled, none of the checked
properties crosses an expiry boundary). -/
def cacheSet (st : Store) (k v : String) : Store :=
  cacheDelete st k ++ [(k, v)]

/-- The jti-rotation block of the `/auth/refresh` handler (`auth.py` lines
259-284), on the path where Redis is reachable, the refresh JWT decoded to a
payload of type `refresh`, and the user exists and is active: look up
`refresh:{jti}`; if absent, reject with the 401 `HTTPException`; otherwise
delete the old record, mint `new_jti`, and store `refresh:{new_jti}` before
returning.  The freshly generated `uuid4` is passed in as `new_jti`. -/
def refreshRotate (st : Store) (jti new_jti user_id : String) :
    Except String (Store × String) :=
  match cacheGet st ("refresh:" ++ jti) with
  | none => .error "Refresh token revoked or not found"
  | some _ =>
    let st1 := cacheDelete st ("refresh:" ++ jti)
    let st2 := cacheSet st1 ("refresh:" ++ new_jti) user_id
    .ok (st2, new_jti)

end Auth

/-! ### `backend/data_loader.py` — in-memory corpus, indexes and search

A CPython dict is modelled as an association list: insertion of a new key
appends, insertion of a present key overwrites in place, iteration follows
key-insertion order. -/

namespace DataLoader

/-- Python dict assignment `d[k] = v`. -/
def dictInsert {β : Type} : List (String × β) → String → β → List (String × β)
  | [], k, v => [(k, v)]
  | (k0, v0) :: rest, k, v =>
    if k0 = k then (k0, v) :: rest else (k0, v0) :: dictInsert rest k v

/-- Python dict lookup `d.get(k)` / `k in d`. -/
def dictFind? {β : Type} : List (String × β) → String → Option β
  | [], _ => none
  | (k0, v0) :: rest, k => if k0 = k then some v0 else dictFind? rest k

/-- Python `d.get(k, v0)`. -/
def dictGetD {β : Type} (d : List (String × β)) (k : String) (v0 : β) : β :=
  (dictFind? d k).getD v0

/-- The `if key not in d: d[key] = []` then `d[key].append(x)` idiom used by
`_build_indexes` for the mechanism and target indexes. -/
def multiInsert {β : Type} (d : List (String × List β)) (k : String) (x : β) :
    List (String × List β) :=
  dictInsert d k (dictGetD d k [] ++ [x])

/-- One record of the Broad-hub drug dataset, with the fields the backend
reads (`broad_complete.json` entries). -/
structure BroadDrug where
  pert_iname : String
  clinical_phase : String
  moa : String
  target : String
  disease_area : String
  indication : String
deriving DecidableEq, BEq, Repr

/-- One curated hero repurposing case
(`hero_repurposing_cases.json` entries), with the fields the search and
detail endpoints read.  `repurposed_cancer` is normalized to a list. -/
structure HeroCase where
  drug_name : String
  original_indication : String
  repurposed_cancer : List String
  confidence_score : ℚ
  phase : String
  mechanism : String
  pathways : List String
deriving DecidableEq, BEq, Repr

/-- The in-memory datasets held by a `DataLoader` instance. -/
structure Loader where
  broad_drugs : List BroadDrug
  oncology_compounds : List BroadDrug
  hero_cases : List HeroCase
deriving Repr

/-- The `drugs_by_name` index of `DataLoader._build_indexes`: lowercased
`pert_iname` mapping to the drug, skipping empty names; a later drug with
the same lowercased name overwrites the earlier one. -/
def buildNameIndex (drugs : List BroadDrug) : List (String × BroadDrug) :=
  drugs.foldl
    (fun idx drug =>
      let name := strToLower drug.pert_iname
      if name ≠ "" then dictInsert idx name drug else idx)
    []

/-- The `drugs_by_moa` index of `DataLoader._build_indexes`: the exact `moa`
string mapping to the ordered list of drugs carrying it, skipping drugs with
an empty `moa`. -/
def buildMoaIndex (drugs : List BroadDrug) : List (String × List BroadDrug) :=
  drugs.foldl
    (fun idx drug =>
      if drug.moa ≠ "" then multiInsert idx drug.moa drug else idx)
    []

/-- The `drugs_by_target` index of `DataLoader._build_indexes`: the target
string is pipe-split, each piece is stripped, and nonempty pieces become keys
(no case change) mapping to the ordered list of drugs listing them. -/
def buildTargetIndex (drugs : List BroadDrug) : List (String × List BroadDrug) :=
  drugs.foldl
    (fun idx drug =>
      if drug.target ≠ "" then
        (splitPipe drug.target).foldl
          (fun idx t =>
            let t := strTrim t
            if t ≠ "" then multiInsert idx t drug else idx)
          idx
      else idx)
    []

/-- `DataLoader.search_drugs`: exact name hit, then partial name matches,
then mechanism-key matches, then target-key matches, then disease-area /
indication matches, deduplicating by structural equality (`drug not in
results`), truncated to `limit`. -/
def search_drugs (l : Loader) (query : String) (limit : ℕ) : List BroadDrug :=
  let query_lower := strToLower query
  let by_name := buildNameIndex l.broad_drugs
  let by_moa := buildMoaIndex l.broad_drugs
  let by_target := buildTargetIndex l.broad_drugs
  let r0 : List BroadDrug :=
    match dictFind? by_name query_lower with
    | some d => [d]
    | none => []
  let r1 := by_name.foldl
    (fun rs p =>
      if containsStr p.1 query_lower && !(rs.contains p.2) then rs ++ [p.2]
      else rs)
    r0
  let r2 := by_moa.foldl
    (fun rs p =>
      if containsStr (strToLower p.1) query_lower then
        p.2.foldl (fun rs d => if !(rs.contains d) then rs ++ [d] else rs) rs
      else rs)
    r1
  let r3 := by_target.foldl
    (fun rs p =>
      if containsStr (strToLower p.1) query_lower then
        p.2.foldl (fun rs d => if !(rs.contains d) then rs ++ [d] else rs) rs
      else rs)
    r2
  let r4 := l.broad_drugs.foldl
    (fun rs d =>
      if rs.contains d then rs
      else if containsStr (strToLower d.disease_area) query_lower ||
          containsStr (strToLower d.indication) query_lower then rs ++ [d]
      else rs)
    r3
  r4.take limit

/-- The keys under which `_build_indexes` files a drug in `drugs_by_moa`:
its exact `moa` string, unless empty. -/
def moaKeys (d : BroadDrug) : List String :=
  if d.moa ≠ "" then [d.moa] else []

/-- The keys under which `_build_indexes` files a drug in `drugs_by_target`:
the stripped, nonempty pieces of the pipe-split target string, case
untouched. -/
def targetKeys (d : BroadDrug) : List String :=
  ((splitPipe d.target).map strTrim).filter (fun t => t ≠ "")

/-- Generic form of the two list-valued index builders: each drug is appended
to the bucket of every one of its keys, in corpus order. -/
def buildMultiIndex (keysOf : BroadDrug → List String) (xs : List BroadDrug) :
    List (String × List BroadDrug) :=
  xs.foldl
    (fun idx x => (keysOf x).foldl (fun idx k => multiInsert idx k x) idx)
    []

/-- `DataLoader.get_drugs_by_mechanism`: exact dict lookup in `drugs_by_moa`,
defaulting to the empty list. -/
def get_drugs_by_mechanism (l : Loader) (moa : String) : List BroadDrug :=
  dictGetD (buildMoaIndex l.broad_drugs) moa []

end DataLoader

/-! ### `backend/integrated_api.py` — the search and mechanism endpoints

FastAPI `Query` bounds (`ge`, `le`, `min_length`) reject a request before the
handler runs; a rejected request surfaces as a `Validation` error. -/

namespace IntegratedApi

open DataLoader

/-- The `source` discriminator of a `DrugMatch`. -/
inductive MatchSource
  | hero_case
  | broad_hub
deriving DecidableEq, Repr

/-- The `DrugMatch` response model. -/
structure DrugMatch where
  source : MatchSource
  drug_name : String
  clinical_phase : Option String
  mechanism : Option String
  confidence_score : Option ℚ
  cancer_types : Option (List String)
  targets : Option (List String)
  disease_area : Option String
deriving DecidableEq, Repr

/-- The `SearchResponse` model (`execution_time_ms` omitted: wall-clock
timing is not part of any checked property). -/
structure SearchResponse where
  query : String
  total_results : ℕ
  hero_cases_found : ℕ
  broad_hub_matches : ℕ
  results : List DrugMatch
deriving DecidableEq, Repr

/-- The hero-case match test of `search_repurposing`: the lowercased query
occurs in the drug name, any repurposed cancer, the mechanism, or any
pathway. -/
def heroMatchPred (query_lower : String) (case : HeroCase) : Bool :=
  containsStr (strToLower case.drug_name) query_lower ||
  case.repurposed_cancer.any (fun c => containsStr (strToLower c) query_lower) ||
  containsStr (strToLower case.mechanism) query_lower ||
  case.pathways.any (fun p => containsStr (strToLower p) query_lower)

/-- A matched hero case rendered as a `DrugMatch`. -/
def mkHeroMatch (case : HeroCase) : DrugMatch :=
  { source := .hero_case
    drug_name := case.drug_name
    clinical_phase := some case.phase
    mechanism := some case.mechanism
    confidence_score := some case.confidence_score
    cancer_types := some case.repurposed_cancer
    targets := none
    disease_area := none }

/-- A Broad-hub drug rendered as a `DrugMatch` (targets pipe-split and capped
at five). -/
def mkBroadMatch (drug : BroadDrug) : DrugMatch :=
  let targets := if drug.target ≠ "" then splitPipe drug.target else []
  { source := .broad_hub
    drug_name := drug.pert_iname
    clinical_phase := some drug.clinical_phase
    mechanism := some drug.moa
    confidence_score := none
    cancer_types := none
    targets := some (targets.take 5)
    disease_area := some drug.disease_area }

/-- The `/api/v1/search` handler body on the default `oncology_only=False`
path (the `oncology_only=True` branch searches the string repr of the raw
record and is not touched by any checked property): hero cases matching the
query, then Broad-hub results from `search_drugs(q, limit*2)` truncated to
`limit`, concatenated hero-first and truncated to `limit` again. -/
def search_repurposing (l : Loader) (q : String) (limit : ℕ) : SearchResponse :=
  let query_lower := strToLower q
  let hero_matches := (l.hero_cases.filter (heroMatchPred query_lower)).map mkHeroMatch
  let search_results := search_drugs l q (limit * 2)
  let broad_matches := (search_results.take limit).map mkBroadMatch
  let all_matches := hero_matches ++ broad_matches
  { query := q
    total_results := all_matches.length
    hero_cases_found := hero_matches.length
    broad_hub_matches := broad_matches.length
    results := all_matches.take limit }

/-- How a request fails: FastAPI parameter validation (HTTP 422) or an
`HTTPException(404)` raised by the handler. -/
inductive ApiError
  | validation
  | notFound
deriving DecidableEq, Repr

/-- The `/api/v1/search` endpoint including its `Query` declarations:
`q` has `min_length=2` and `limit` has `ge=1, le=200` (default 50); a
violated bound rejects the request with a validation error before the
handler runs. -/
def search_endpoint (l : Loader) (q : String) (limit : ℤ) :
    Except ApiError SearchResponse :=
  if 2 ≤ q.length ∧ 1 ≤ limit ∧ limit ≤ 200 then
    .ok (search_repurposing l q limit.toNat)
  else .error .validation

/-- One formatted entry of the `/api/v1/mechanism/{moa}` response. -/
structure MechanismEntry where
  drug_name : String
  clinical_phase : String
  targets : List String
  disease_area : String
deriving DecidableEq, Repr

/-- The `/api/v1/mechanism/{moa}` response model. -/
structure MechanismResponse where
  mechanism : String
  total_drugs : ℕ
  drugs : List MechanismEntry
deriving DecidableEq, Repr

/-- Formatting of one drug in `get_drugs_by_mechanism` (the endpoint). -/
def mkMechanismEntry (drug : BroadDrug) : MechanismEntry :=
  { drug_name := drug.pert_iname
    clinical_phase := drug.clinical_phase
    targets := (if drug.target ≠ "" then splitPipe drug.target else []).take 5
    disease_area := drug.disease_area }

/-- The `/api/v1/mechanism/{moa}` endpoint: `limit` has `ge=1, le=200`
(default 50); the handler raises `HTTPException(404)` when
`loader.get_drugs_by_mechanism(moa)` is empty, else formats the first
`limit` drugs. -/
def mechanism_endpoint (l : Loader) (moa : String) (limit : ℤ) :
    Except ApiError MechanismResponse :=
  if 1 ≤ limit ∧ limit ≤ 200 then
    let drugs := get_drugs_by_mechanism l moa
    if drugs = [] then .error .notFound
    else
      let formatted := (drugs.take limit.toNat).map mkMechanismEntry
      .ok ⟨moa, formatted.length, formatted⟩
  else .error .validation

end IntegratedApi

/-! ### Concrete inputs used by witnesses and counterexamples -/

namespace Fixtures

/-- The evidence bundle of the spec's source-averaging scenario:
`{phase="Phase 2", trials=20, citations=30,
sources=["repoDB","ClinicalTrials.gov","ReDO_DB"], pathways=["A","B","C"]}`. -/
def phase2Evidence : ConfidenceScorer.Evidence :=
  ⟨"Phase 2", 20, 30, ["repoDB", "ClinicalTrials.gov", "ReDO_DB"], ["A", "B", "C"]⟩

/-- A curated hero case with a mid-range confidence score. -/
def heroAspirin : DataLoader.HeroCase :=
  ⟨"Aspirin", "Pain", ["Colorectal Cancer"], 0.5, "Approved", "COX inhibition",
   ["COX-1", "COX-2"]⟩

/-- A curated hero case listed after `heroAspirin` with a higher confidence
score; both match the query `"asp"`. -/
def heroAspocid : DataLoader.HeroCase :=
  ⟨"Aspocid", "Fever", ["Lung Cancer"], 0.9, "Phase 3", "COX inhibition",
   ["COX-2"]⟩

/-- A corpus whose curated hero list is not sorted by confidence. -/
def heroLoader : DataLoader.Loader := ⟨[], [], [heroAspirin, heroAspocid]⟩

/-- A Broad-hub drug whose mechanism of action strictly contains `"CDK"`. -/
def cdkDrug : DataLoader.BroadDrug :=
  ⟨"palbociclib", "Launched", "CDK inhibitor", "CDK4|CDK6", "oncology",
   "breast cancer"⟩

/-- A corpus holding only `cdkDrug`. -/
def moaLoader : DataLoader.Loader := ⟨[cdkDrug], [], []⟩

/-- A Broad-hub drug whose target string carries lowercase symbols and
stray whitespace. -/
def egfrDrug : DataLoader.BroadDrug :=
  ⟨"gefitinib", "Launched", "EGFR inhibitor", " egfr | ALK", "oncology",
   "lung cancer"⟩

/-- One hundred pairwise distinct admission timestamps, one second apart,
all inside a single 3600-second window. -/
def witnessTimes : List ℤ := List.map (fun n : ℕ => (n : ℤ)) (List.range 100)

end Fixtures

/-! ### Theorems -/

section Claims

open ConfidenceScorer

/-- The five sub-scores of the source-averaging evidence bundle, computed
one factor at a time. -/
theorem phase2_sub_scores :
    score_clinical_phase "Phase 2" = 0.65 ∧
    score_trial_count 20 = 0.70 ∧
    score_citations 30 = 0.55 ∧
    score_mechanism ["A", "B", "C"] = 0.85 := ⟨rfl, rfl, rfl, rfl⟩

/-- The credibility values assigned to the three sources of the bundle. -/
theorem phase2_source_credibilities :
    (["repoDB", "ClinicalTrials.gov", "ReDO_DB"].map source_credibility) =
      [0.95, 0.90, 0.85] := rfl

/-- The source factor of the bundle: average of the top three credibilities. -/
theorem phase2_source_score :
    score_sources ["repoDB", "ClinicalTrials.gov", "ReDO_DB"] = 0.90 := by
  unfold score_sources
  rw [if_neg (by decide :
    ¬(["repoDB", "ClinicalTrials.gov", "ReDO_DB"] = ([] : List String)))]
  rw [phase2_source_credibilities]
  norm_num [List.insertionSort, List.orderedInsert]

end Claims

section ClaimsScorer

open ConfidenceScorer

/-- C1: for every evidence bundle the scorer returns a confidence in
`[0, 1]`, and it is deterministic: equal evidence dicts give equal
confidence, equal tier, and equal explanation output. -/
theorem scorer_bounded_and_deterministic (e e2 : Evidence) (h : e = e2) :
    0 ≤ calculate_confidence e ∧
    calculate_confidence e ≤ 1 ∧
    calculate_confidence e = calculate_confidence e2 ∧
    get_confidence_tier (calculate_confidence e) =
      get_confidence_tier (calculate_confidence e2) ∧
    explain_score e = explain_score e2 := by
  subst h
  refine ⟨?_, ?_, rfl, rfl, rfl⟩
  · unfold calculate_confidence
    exact le_max_left _ _
  · unfold calculate_confidence
    exact max_le (by norm_num) (min_le_left _ _)

/-- Witness for C1 at the concrete source-averaging bundle. -/
theorem scorer_bounded_and_deterministic_witness :
    0 ≤ calculate_confidence Fixtures.phase2Evidence ∧
    calculate_confidence Fixtures.phase2Evidence ≤ 1 ∧
    calculate_confidence Fixtures.phase2Evidence =
      calculate_confidence Fixtures.phase2Evidence ∧
    get_confidence_tier (calculate_confidence Fixtures.phase2Evidence) =
      get_confidence_tier (calculate_confidence Fixtures.phase2Evidence) ∧
    explain_score Fixtures.phase2Evidence = explain_score Fixtures.phase2Evidence :=
  scorer_bounded_and_deterministic Fixtures.phase2Evidence Fixtures.phase2Evidence rfl

/-- C2 counterexample: on the bundle `{phase="Phase 2", trials=20,
citations=30, sources=[repoDB, ClinicalTrials.gov, ReDO_DB],
pathways=[A,B,C]}` the code computes confidence `0.7025` and tier `High`,
not `~0.61` / `Moderate`: the spec's own weighted sum
`0.40*0.65 + 0.20*0.70 + 0.15*0.55 + 0.15*0.90 + 0.10*0.85` equals
`0.7025`, not `0.6075`. -/
theorem phase2_bundle_not_moderate :
    calculate_confidence Fixtures.phase2Evidence = 0.7025 ∧
    get_confidence_tier (calculate_confidence Fixtures.phase2Evidence) = "High" ∧
    get_confidence_tier (calculate_confidence Fixtures.phase2Evidence) ≠ "Moderate" ∧
    ¬((0.7025 : ℚ) < 0.65) := by
  have hconf : calculate_confidence Fixtures.phase2Evidence = 0.7025 := by
    unfold calculate_confidence
    have h1 : score_clinical_phase Fixtures.phase2Evidence.phase = 0.65 := rfl
    have h2 : score_trial_count Fixtures.phase2Evidence.clinical_trials = 0.70 := rfl
    have h3 : score_citations Fixtures.phase2Evidence.pubmed_citations = 0.55 := rfl
    have h4 : score_sources Fixtures.phase2Evidence.sources = 0.90 := by
      exact phase2_source_score
    have h5 : score_mechanism Fixtures.phase2Evidence.pathways = 0.85 := rfl
    rw [h1, h2, h3, h4, h5]
    norm_num [weight_phase, weight_trial_count, weight_citations,
      weight_sources, weight_mechanism]
  refine ⟨hconf, ?_, ?_, by norm_num⟩
  · rw [hconf]
    unfold get_confidence_tier
    rw [if_neg (by norm_num : ¬((0.7025 : ℚ) ≥ 0.85)),
      if_pos (by norm_num : (0.7025 : ℚ) ≥ 0.70)]
  · rw [hconf]
    unfold get_confidence_tier
    rw [if_neg (by norm_num : ¬((0.7025 : ℚ) ≥ 0.85)),
      if_pos (by norm_num : (0.7025 : ℚ) ≥ 0.70)]
    decide

/-- C2 amended: the bundle yields the sub-scores
`(0.65, 0.70, 0.55, avg(0.95, 0.90, 0.85) = 0.90, 0.85)`, a final
confidence of exactly `0.7025` (which rounds to `0.70`), and tier `High`. -/
theorem phase2_bundle_scores :
    score_clinical_phase "Phase 2" = 0.65 ∧
    score_trial_count 20 = 0.70 ∧
    score_citations 30 = 0.55 ∧
    score_sources ["repoDB", "ClinicalTrials.gov", "ReDO_DB"] = 0.90 ∧
    score_mechanism ["A", "B", "C"] = 0.85 ∧
    calculate_confidence Fixtures.phase2Evidence = 0.7025 ∧
    round2 (calculate_confidence Fixtures.phase2Evidence) = 0.70 ∧
    get_confidence_tier (calculate_confidence Fixtures.phase2Evidence) = "High" := by
  have hconf : calculate_confidence Fixtures.phase2Evidence = 0.7025 := by
    unfold calculate_confidence
    have h4 : score_sources Fixtures.phase2Evidence.sources = 0.90 := by
      exact phase2_source_score
    rw [show score_clinical_phase Fixtures.phase2Evidence.phase = 0.65 from rfl,
      show score_trial_count Fixtures.phase2Evidence.clinical_trials = 0.70 from rfl,
      show score_citations Fixtures.phase2Evidence.pubmed_citations = 0.55 from rfl,
      h4,
      show score_mechanism Fixtures.phase2Evidence.pathways = 0.85 from rfl]
    norm_num [weight_phase, weight_trial_count, weight_citations,
      weight_sources, weight_mechanism]
  refine ⟨rfl, rfl, rfl, phase2_source_score, rfl, hconf, ?_, ?_⟩
  · rw [hconf]
    unfold round2 roundHalfEven
    norm_num
  · rw [hconf]
    unfold get_confidence_tier
    rw [if_neg (by norm_num : ¬((0.7025 : ℚ) ≥ 0.85)),
      if_pos (by norm_num : (0.7025 : ℚ) ≥ 0.70)]

end ClaimsScorer

section ClaimsRateLimiter

open RateLimiter

/-- If every timestamp of the set is inside the window at time `t`, the
script's eviction pass leaves the set unchanged. -/
theorem script_filter_id (s : List ℤ) (window t : ℤ)
    (h : ∀ x ∈ s, t - window < x) :
    s.filter (fun x => decide (t - window < x)) = s := by
  apply List.filter_eq_self.mpr
  intro x hx
  exact decide_eq_true (h x hx)

/-- One allowed step of the script: with every stored timestamp inside the
window, strictly below the limit, and a fresh timestamp, the request is
allowed and the timestamp is inserted. -/
theorem script_allows_step (s : List ℤ) (window limit t : ℤ)
    (hwin : ∀ x ∈ s, t - window < x)
    (hmem : t ∉ s)
    (hcnt : (s.length : ℤ) < limit) :
    check_rate_limit_script s window limit t =
      ⟨true, (s.length : ℤ) + 1, t :: s⟩ := by
  unfold check_rate_limit_script
  rw [script_filter_id s window t hwin]
  rw [if_neg (by omega : ¬(limit > 0 ∧ (s.length : ℤ) ≥ limit))]
  rw [if_neg hmem]

/-- One denied step of the script: with every stored timestamp inside the
window and the count at or above a positive limit, the request is denied and
the set is left exactly as the eviction pass produced it. -/
theorem script_denies_step (s : List ℤ) (window limit t : ℤ)
    (hwin : ∀ x ∈ s, t - window < x)
    (hpos : 0 < limit)
    (hcnt : (s.length : ℤ) ≥ limit) :
    check_rate_limit_script s window limit t = ⟨false, (s.length : ℤ), s⟩ := by
  unfold check_rate_limit_script
  rw [script_filter_id s window t hwin]
  rw [if_pos ⟨hpos, hcnt⟩]

/-- Running the script over strictly increasing timestamps that all lie
inside the window anchored at an upper bound `T`, starting from a set whose
elements are older than all of them but still in-window, admits every
request and accumulates exactly those timestamps. -/
theorem runScriptTimes_all_allowed (window limit T : ℤ) :
    ∀ (ts s : List ℤ),
      List.Pairwise (· < ·) ts →
      (∀ x ∈ s, ∀ t ∈ ts, x < t) →
      (∀ t ∈ ts, t ≤ T) →
      (∀ x ∈ s, T - window < x) →
      (∀ t ∈ ts, T - window < t) →
      ((s.length : ℤ) + ts.length ≤ limit) →
      runScriptTimes window limit s ts = (ts.reverse ++ s, true) := by
  intro ts
  induction ts with
  | nil =>
    intro s _ _ _ _ _ _
    simp [runScriptTimes]
  | cons t ts ih =>
    intro s hpw hbefore hleT hwins hwints hlen
    have hts := List.pairwise_cons.mp hpw
    have hwin : ∀ x ∈ s, t - window < x := by
      intro x hx
      have h1 : T - window < x := hwins x hx
      have h2 : t ≤ T := hleT t (List.mem_cons_self t ts)
      omega
    have hmem : t ∉ s := by
      intro hmem
      exact absurd (hbefore t hmem t (List.mem_cons_self t ts)) (lt_irrefl t)
    have hcnt : (s.length : ℤ) < limit := by
      have : (ts.length : ℤ) + 1 = ((t :: ts).length : ℤ) := by
        simp
      omega
    have hstep := script_allows_step s window limit t hwin hmem hcnt
    have hrec := ih (t :: s) hts.2
      (by
        intro x hx u hu
        rcases List.mem_cons.mp hx with hx | hx
        · exact hx ▸ hts.1 u hu
        · exact hbefore x hx u (List.mem_cons_of_mem t hu))
      (fun u hu => hleT u (List.mem_cons_of_mem t hu))
      (by
        intro x hx
        rcases List.mem_cons.mp hx with hx | hx
        · exact hx ▸ hwints t (List.mem_cons_self t ts)
        · exact hwins x hx)
      (fun u hu => hwints u (List.mem_cons_of_mem t hu))
      (by
        have : ((t :: ts).length : ℤ) = (ts.length : ℤ) + 1 := by simp
        have h2 : ((t :: s).length : ℤ) = (s.length : ℤ) + 1 := by simp
        omega)
    show (let r := check_rate_limit_script s window limit t
      let rest := runScriptTimes window limit r.state ts
      (rest.1, r.allowed && rest.2)) = ((t :: ts).reverse ++ s, true)
    rw [hstep]
    simp only [hrec]
    simp [List.reverse_cons, List.append_assoc]

end ClaimsRateLimiter

section ClaimsRateLimiterMain

open RateLimiter

/-- C3 amended: for every tier with a finite limit `L`, after exactly `L`
allowed admissions at pairwise distinct timestamps inside one window, the
`(L+1)`-th admission in the same window is denied with `remaining = 0`,
`reset = now + window_size` and `Retry-After = window_size`, all decided and
recorded by the single atomic script; and once the window has elapsed the old
timestamps are evicted, so a new admission succeeds.  (The per-identity key
only selects which sorted set `state` is; the state is passed explicitly.) -/
theorem sliding_window_enforces_limit
    (tier : RateLimitTier) (ts : List ℤ) (T T2 : ℤ)
    (hfin : (RATE_LIMITS tier).requests_per_hour ≠ 0)
    (hlen : (ts.length : ℤ) = (RATE_LIMITS tier).requests_per_hour)
    (hpw : List.Pairwise (· < ·) ts)
    (hleT : ∀ t ∈ ts, t ≤ T)
    (hwinT : ∀ t ∈ ts, T - (RATE_LIMITS tier).window_size < t)
    (hT2 : ∀ t ∈ ts, t ≤ T2 - (RATE_LIMITS tier).window_size) :
    runScriptTimes (RATE_LIMITS tier).window_size
        (RATE_LIMITS tier).requests_per_hour [] ts = (ts.reverse, true) ∧
    check_rate_limit true ts.reverse tier T =
      ⟨false,
       ⟨(RATE_LIMITS tier).requests_per_hour,
        (RATE_LIMITS tier).requests_per_hour,
        .num 0, some (T + (RATE_LIMITS tier).window_size)⟩,
       ts.reverse, false⟩ ∧
    retry_after
      ⟨(RATE_LIMITS tier).requests_per_hour,
       (RATE_LIMITS tier).requests_per_hour,
       .num 0, some (T + (RATE_LIMITS tier).window_size)⟩ T =
      some (RATE_LIMITS tier).window_size ∧
    (check_rate_limit true ts.reverse tier T2).allowed = true := by
  have hpos : 0 < (RATE_LIMITS tier).requests_per_hour := by
    rcases tier <;> simp [RATE_LIMITS] at hfin ⊢
  have hlenS : ((ts.reverse).length : ℤ) = (RATE_LIMITS tier).requests_per_hour := by
    simpa using hlen
  have hwinS : ∀ x ∈ ts.reverse, T - (RATE_LIMITS tier).window_size < x := by
    intro x hx
    exact hwinT x (List.mem_reverse.mp hx)
  have hdeny := script_denies_step ts.reverse (RATE_LIMITS tier).window_size
    (RATE_LIMITS tier).requests_per_hour T hwinS hpos hlenS.ge
  have hscript2 : check_rate_limit_script ts.reverse
      (RATE_LIMITS tier).window_size (RATE_LIMITS tier).requests_per_hour T2 =
      ⟨true, 1, [T2]⟩ := by
    unfold check_rate_limit_script
    rw [show (ts.reverse.filter fun x =>
        decide (T2 - (RATE_LIMITS tier).window_size < x)) = [] from
      List.filter_eq_nil_iff.mpr (by
        intro x hx
        have := hT2 x (List.mem_reverse.mp hx)
        simp only [decide_eq_true_eq]
        omega)]
    rw [if_neg (by simp : ¬((RATE_LIMITS tier).requests_per_hour > 0 ∧
      ((([] : List ℤ).length : ℤ) ≥ (RATE_LIMITS tier).requests_per_hour)))]
    simp
  refine ⟨?_, ?_, ?_, ?_⟩
  · have := runScriptTimes_all_allowed (RATE_LIMITS tier).window_size
      (RATE_LIMITS tier).requests_per_hour T ts [] hpw
      (by simp) hleT (by simp) hwinT (by simpa using hlen.le)
    simpa using this
  · simp only [check_rate_limit]
    rw [if_neg hfin]
    simp only [if_pos rfl, hdeny, hlenS]
    simp
  · simp [retry_after]
  · simp only [check_rate_limit]
    rw [if_neg hfin]
    simp [hscript2]

end ClaimsRateLimiterMain

section ClaimsRateLimiterWitness

open RateLimiter

/-- Witness for the amended C3 theorem: the Basic tier (limit 100, window
3600) with admissions at seconds 0..99, the 101st request at second 100, and
a fresh request at second 4000. -/
theorem sliding_window_enforces_limit_witness :
    runScriptTimes 3600 100 [] Fixtures.witnessTimes =
      (Fixtures.witnessTimes.reverse, true) ∧
    check_rate_limit true Fixtures.witnessTimes.reverse .basic 100 =
      ⟨false, ⟨100, 100, .num 0, some 3700⟩, Fixtures.witnessTimes.reverse, false⟩ ∧
    retry_after ⟨100, 100, .num 0, some 3700⟩ 100 = some 3600 ∧
    (check_rate_limit true Fixtures.witnessTimes.reverse .basic 4000).allowed = true := by
  have hbound : ∀ t ∈ Fixtures.witnessTimes, 0 ≤ t ∧ t < 100 := by
    intro t ht
    unfold Fixtures.witnessTimes at ht
    obtain ⟨n, hn, rfl⟩ := List.mem_map.mp ht
    have := List.mem_range.mp hn
    omega
  have hpw : List.Pairwise (fun a b : ℤ => a < b) Fixtures.witnessTimes := by
    unfold Fixtures.witnessTimes
    refine List.pairwise_map.mpr ?_
    exact (List.pairwise_lt_range 100).imp (fun h => Int.ofNat_lt.mpr h)
  have hlen : ((Fixtures.witnessTimes.length : ℤ)) =
      (RATE_LIMITS .basic).requests_per_hour := by
    unfold Fixtures.witnessTimes
    simp only [List.length_map, List.length_range]
    decide
  exact sliding_window_enforces_limit .basic Fixtures.witnessTimes 100 4000
    (by decide) hlen hpw
    (by
      intro t ht
      have := hbound t ht
      omega)
    (by
      intro t ht
      have := hbound t ht
      simp only [RATE_LIMITS]
      omega)
    (by
      intro t ht
      have := hbound t ht
      simp only [RATE_LIMITS]
      omega)

set_option maxRecDepth 4000 in
/-- C3 counterexample: the Lua script keys the sorted set by the timestamp
itself (`ZADD key now now`), so admissions sharing a timestamp collapse into
one member.  One hundred allowed admissions of a Basic identity, all in the
same second, leave a single stored timestamp, and the 101st request in the
same window is still allowed — refuting the claim for admissions that are
not at pairwise distinct timestamps. -/
theorem same_second_requests_not_denied :
    runScriptTimes 3600 100 [] (List.replicate 100 0) = ([0], true) ∧
    check_rate_limit true [0] .basic 0 =
      ⟨true, ⟨100, 2, .num 98, some 3600⟩, [0], false⟩ := by
  constructor
  · decide
  · decide

end ClaimsRateLimiterWitness

section ClaimsRateLimiterDenied

open RateLimiter

/-- Evicting at a later time subsumes evicting at an earlier time: filtering
for the window at `u ≥ t` after filtering at `t` equals filtering at `u`
directly. -/
theorem filter_window_absorb (window t u : ℤ) (hle : t ≤ u) :
    ∀ (l : List ℤ),
      (l.filter (fun x => decide (t - window < x))).filter
          (fun x => decide (u - window < x)) =
        l.filter (fun x => decide (u - window < x)) := by
  intro l
  induction l with
  | nil => rfl
  | cons a l ih =>
    by_cases h1 : t - window < a
    · by_cases h2 : u - window < a
      · simp [List.filter_cons, h1, h2, ih]
      · simp [List.filter_cons, h1, h2, ih]
    · have h2 : ¬(u - window < a) := by omega
      simp [List.filter_cons, h1, h2, ih]

/-- C10: a denied admission never consumes a window slot.  When the script
denies, the sorted set it leaves behind is exactly the eviction pass over the
old set (no timestamp inserted), and any later script run on that state
behaves exactly as it would have on the old state — a denied request cannot
extend the denial period. -/
theorem denied_admission_consumes_no_slot
    (s : List ℤ) (window limit t u : ℤ)
    (hdeny : (check_rate_limit_script s window limit t).allowed = false)
    (hle : t ≤ u) :
    (check_rate_limit_script s window limit t).state =
      s.filter (fun x => decide (t - window < x)) ∧
    check_rate_limit_script ((check_rate_limit_script s window limit t).state)
        window limit u =
      check_rate_limit_script s window limit u := by
  by_cases hc : limit > 0 ∧
      (((s.filter (fun x => decide (t - window < x))).length : ℤ) ≥ limit)
  · have hstate : (check_rate_limit_script s window limit t).state =
        s.filter (fun x => decide (t - window < x)) := by
      unfold check_rate_limit_script
      rw [if_pos hc]
    refine ⟨hstate, ?_⟩
    rw [hstate]
    unfold check_rate_limit_script
    rw [filter_window_absorb window t u hle s]
  · exfalso
    unfold check_rate_limit_script at hdeny
    rw [if_neg hc] at hdeny
    simp at hdeny

/-- Witness for C10: a full window (`limit = 1`, one stored timestamp) denies
at second 5 without touching the set, and the run at second 10 is unaffected. -/
theorem denied_admission_consumes_no_slot_witness :
    (check_rate_limit_script [0] 3600 1 5).state =
      [0].filter (fun x => decide (5 - 3600 < x)) ∧
    check_rate_limit_script ((check_rate_limit_script [0] 3600 1 5).state)
        3600 1 10 =
      check_rate_limit_script [0] 3600 1 10 :=
  denied_admission_consumes_no_slot [0] 3600 1 5 10 (by decide) (by decide)

/-- C7: when the cache backend raises during an admission check, the request
is allowed (fail-open) with the degraded-mode log line emitted and the window
state untouched; and the Enterprise tier short-circuits to allow before any
cache access, so its result and the stored state are the same whether or not
the cache is reachable. -/
theorem fail_open_and_enterprise_bypass :
    (∀ (state : List ℤ) (tier : RateLimitTier) (now : ℤ),
      tier ≠ RateLimitTier.enterprise →
      check_rate_limit false state tier now =
        ⟨true, ⟨0, 0, .unknown, none⟩, state, true⟩) ∧
    (∀ (cache_up : Bool) (state : List ℤ) (now : ℤ),
      check_rate_limit cache_up state RateLimitTier.enterprise now =
        ⟨true, ⟨0, 0, .unlimited, none⟩, state, false⟩) := by
  constructor
  · intro state tier now hne
    cases tier with
    | basic => rfl
    | professional => rfl
    | enterprise => exact absurd rfl hne
  · intro cache_up state now
    rfl

/-- Witness for C7 at a concrete state, time and the Basic and Enterprise
tiers. -/
theorem fail_open_and_enterprise_bypass_witness :
    check_rate_limit false [7] RateLimitTier.basic 42 =
      ⟨true, ⟨0, 0, .unknown, none⟩, [7], true⟩ ∧
    check_rate_limit false [7] RateLimitTier.enterprise 42 =
      ⟨true, ⟨0, 0, .unlimited, none⟩, [7], false⟩ :=
  ⟨fail_open_and_enterprise_bypass.1 [7] RateLimitTier.basic 42 (by decide),
   fail_open_and_enterprise_bypass.2 false [7] 42⟩

end ClaimsRateLimiterDenied

section ClaimsAuth

open Auth

/-- Appending to the same string on the left is injective. -/
theorem string_append_cancel_left (p a b : String) (h : p ++ a = p ++ b) :
    a = b := by
  cases a with
  | mk da =>
  cases b with
  | mk db =>
  cases p with
  | mk dp =>
  have hd : dp ++ da = dp ++ db := congrArg String.data h
  exact congrArg String.mk (List.append_cancel_left hd)

/-- Deleting a key makes it unreadable. -/
theorem cacheGet_delete_self (k : String) :
    ∀ st : Store, cacheGet (cacheDelete st k) k = none := by
  intro st
  induction st with
  | nil => rfl
  | cons p rest ih =>
    by_cases h : p.1 = k
    · simpa [cacheDelete, List.filter_cons, h] using ih
    · simpa [cacheDelete, List.filter_cons, h, cacheGet] using ih

/-- Deleting one key leaves every other key unchanged. -/
theorem cacheGet_delete_other (k k2 : String) (hne : k2 ≠ k) :
    ∀ st : Store, cacheGet (cacheDelete st k) k2 = cacheGet st k2 := by
  intro st
  induction st with
  | nil => rfl
  | cons p rest ih =>
    by_cases h : p.1 = k
    · have h2 : p.1 ≠ k2 := by
        rw [h]
        exact fun hx => hne hx.symm
      simp only [cacheDelete, List.filter_cons, h] at ih ⊢
      simpa [cacheGet, h2] using ih
    · by_cases h2 : p.1 = k2
      · simp [cacheDelete, List.filter_cons, h, cacheGet, h2, hne]
      · simp only [cacheDelete, List.filter_cons, h] at ih ⊢
        simpa [cacheGet, h, h2] using ih

/-- Lookup distributes over list append: the left segment wins. -/
theorem cacheGet_append (k : String) :
    ∀ l1 l2 : Store,
      cacheGet (l1 ++ l2) k =
        (match cacheGet l1 k with
         | some v => some v
         | none => cacheGet l2 k) := by
  intro l1
  induction l1 with
  | nil => intro l2; rfl
  | cons p rest ih =>
    intro l2
    by_cases h : p.1 = k
    · simp [cacheGet, h]
    · simpa [cacheGet, h] using ih l2

/-- Reading a key right after setting it returns the written value. -/
theorem cacheGet_set_self (st : Store) (k v : String) :
    cacheGet (cacheSet st k v) k = some v := by
  unfold cacheSet
  rw [cacheGet_append k (cacheDelete st k) [(k, v)]]
  rw [cacheGet_delete_self k st]
  simp [cacheGet]

/-- Setting one key leaves every other key unchanged. -/
theorem cacheGet_set_other (st : Store) (k k2 v : String) (hne : k2 ≠ k) :
    cacheGet (cacheSet st k v) k2 = cacheGet st k2 := by
  unfold cacheSet
  rw [cacheGet_append k2 (cacheDelete st k) [(k, v)]]
  rw [cacheGet_delete_other k k2 hne st]
  cases hget : cacheGet st k2 with
  | none =>
    have hkk : ¬(k = k2) := fun h => hne h.symm
    simp [cacheGet, hkk]
  | some v0 => simp

/-- C4: a refresh presenting a `jti` whose `refresh:{jti}` record is stored
deletes that record and inserts the record of the newly issued `jti` before
returning, so immediately afterwards the prior `jti` is absent, the new
`jti` is present, and a replay of the rotated `jti` is rejected; a refresh
presenting a `jti` with no stored record is rejected as an invalid refresh
token. -/
theorem refresh_rotation_invalidates_old_jti
    (st : Store) (jti new_jti user_id v : String)
    (hstored : cacheGet st ("refresh:" ++ jti) = some v)
    (hne : jti ≠ new_jti) :
    refreshRotate st jti new_jti user_id =
      .ok (cacheSet (cacheDelete st ("refresh:" ++ jti))
        ("refresh:" ++ new_jti) user_id, new_jti) ∧
    (∀ st2 issued, refreshRotate st jti new_jti user_id = .ok (st2, issued) →
      cacheGet st2 ("refresh:" ++ jti) = none ∧
      cacheGet st2 ("refresh:" ++ new_jti) = some user_id ∧
      ∀ j2 uid2, refreshRotate st2 jti j2 uid2 =
        .error "Refresh token revoked or not found") ∧
    (∀ (st0 : Store) (j jn uid : String),
      cacheGet st0 ("refresh:" ++ j) = none →
      refreshRotate st0 j jn uid =
        .error "Refresh token revoked or not found") := by
  have hkeys : ("refresh:" ++ jti) ≠ ("refresh:" ++ new_jti) := by
    intro h
    exact hne (string_append_cancel_left "refresh:" jti new_jti h)
  have hok : refreshRotate st jti new_jti user_id =
      .ok (cacheSet (cacheDelete st ("refresh:" ++ jti))
        ("refresh:" ++ new_jti) user_id, new_jti) := by
    unfold refreshRotate
    rw [hstored]
  have habsent : cacheGet (cacheSet (cacheDelete st ("refresh:" ++ jti))
      ("refresh:" ++ new_jti) user_id) ("refresh:" ++ jti) = none := by
    rw [cacheGet_set_other _ _ _ _ hkeys]
    exact cacheGet_delete_self _ _
  have hmissing : ∀ (st0 : Store) (j jn uid : String),
      cacheGet st0 ("refresh:" ++ j) = none →
      refreshRotate st0 j jn uid =
        .error "Refresh token revoked or not found" := by
    intro st0 j jn uid hnone
    unfold refreshRotate
    rw [hnone]
  refine ⟨hok, ?_, hmissing⟩
  intro st2 issued heq
  rw [hok] at heq
  injection heq with hpair
  injection hpair with h1 h2
  subst h1
  refine ⟨habsent, cacheGet_set_self _ _ _, ?_⟩
  intro j2 uid2
  exact hmissing _ _ _ _ habsent

/-- Witness for C4: a store holding `refresh:A`, rotated to `refresh:B`. -/
theorem refresh_rotation_invalidates_old_jti_witness :
    refreshRotate [("refresh:A", "u1")] "A" "B" "u1" =
      .ok (cacheSet (cacheDelete [("refresh:A", "u1")] ("refresh:" ++ "A"))
        ("refresh:" ++ "B") "u1", "B") ∧
    (∀ st2 issued,
      refreshRotate [("refresh:A", "u1")] "A" "B" "u1" = .ok (st2, issued) →
      cacheGet st2 ("refresh:" ++ "A") = none ∧
      cacheGet st2 ("refresh:" ++ "B") = some "u1" ∧
      ∀ j2 uid2, refreshRotate st2 "A" j2 uid2 =
        .error "Refresh token revoked or not found") ∧
    (∀ (st0 : Store) (j jn uid : String),
      cacheGet st0 ("refresh:" ++ j) = none →
      refreshRotate st0 j jn uid =
        .error "Refresh token revoked or not found") :=
  refresh_rotation_invalidates_old_jti [("refresh:A", "u1")] "A" "B" "u1" "u1"
    (by decide) (by decide)

end ClaimsAuth

section ClaimsSearch

open DataLoader IntegratedApi

/-- C5 amended: the search results split into a hero block followed by a
Broad-hub block — every hero entry precedes every non-hero entry — and the
hero block preserves the curated corpus insertion order (its drug names and
curated confidence scores form a sublist of the hero corpus in file order);
it is not re-sorted by confidence. -/
theorem search_results_heroes_first (l : Loader) (q : String) (limit : ℕ) :
    ∃ H B : List DrugMatch,
      (search_repurposing l q limit).results = H ++ B ∧
      (∀ m ∈ H, m.source = MatchSource.hero_case) ∧
      (∀ m ∈ B, m.source = MatchSource.broad_hub) ∧
      (H.map (fun m => m.drug_name)).Sublist
        (l.hero_cases.map (fun c => c.drug_name)) ∧
      (H.map (fun m => m.confidence_score)).Sublist
        (l.hero_cases.map (fun c => some c.confidence_score)) := by
  refine ⟨((l.hero_cases.filter (heroMatchPred (strToLower q))).map
      mkHeroMatch).take limit,
    (((search_drugs l q (limit * 2)).take limit).map mkBroadMatch).take
      (limit - ((l.hero_cases.filter (heroMatchPred (strToLower q))).map
        mkHeroMatch).length),
    ?_, ?_, ?_, ?_, ?_⟩
  · show (search_repurposing l q limit).results = _
    unfold search_repurposing
    exact List.take_append_eq_append_take
  · intro m hm
    have hmem := List.mem_of_mem_take hm
    obtain ⟨c, _, rfl⟩ := List.mem_map.mp hmem
    rfl
  · intro m hm
    have hmem := List.mem_of_mem_take hm
    obtain ⟨d, _, rfl⟩ := List.mem_map.mp hmem
    rfl
  · have h1 : ((((l.hero_cases.filter (heroMatchPred (strToLower q))).map
        mkHeroMatch).take limit).map (fun m => m.drug_name)).Sublist
        (((l.hero_cases.filter (heroMatchPred (strToLower q))).map
          mkHeroMatch).map (fun m => m.drug_name)) :=
      (List.take_sublist _ _).map _
    have h2 : (((l.hero_cases.filter (heroMatchPred (strToLower q))).map
        mkHeroMatch).map (fun m => m.drug_name)) =
        ((l.hero_cases.filter (heroMatchPred (strToLower q))).map
          (fun c => c.drug_name)) := by
      rw [List.map_map]
      rfl
    have h3 : ((l.hero_cases.filter (heroMatchPred (strToLower q))).map
        (fun c => c.drug_name)).Sublist
        (l.hero_cases.map (fun c => c.drug_name)) :=
      (List.filter_sublist _).map _
    exact (h2 ▸ h1).trans h3
  · have h1 : ((((l.hero_cases.filter (heroMatchPred (strToLower q))).map
        mkHeroMatch).take limit).map (fun m => m.confidence_score)).Sublist
        (((l.hero_cases.filter (heroMatchPred (strToLower q))).map
          mkHeroMatch).map (fun m => m.confidence_score)) :=
      (List.take_sublist _ _).map _
    have h2 : (((l.hero_cases.filter (heroMatchPred (strToLower q))).map
        mkHeroMatch).map (fun m => m.confidence_score)) =
        ((l.hero_cases.filter (heroMatchPred (strToLower q))).map
          (fun c => some c.confidence_score)) := by
      rw [List.map_map]
      rfl
    have h3 : ((l.hero_cases.filter (heroMatchPred (strToLower q))).map
        (fun c => some c.confidence_score)).Sublist
        (l.hero_cases.map (fun c => some c.confidence_score)) :=
      (List.filter_sublist _).map _
    exact (h2 ▸ h1).trans h3

/-- C5 counterexample: a curated corpus listing a 0.5-confidence hero before
a 0.9-confidence hero, both matching the query `"asp"`, is returned in
insertion order — ascending confidence — so the hero results are not ordered
by curated confidence descending. -/
theorem hero_results_not_confidence_sorted :
    ((search_repurposing Fixtures.heroLoader "asp" 50).results.map
      (fun m => m.confidence_score)) = [some 0.5, some 0.9] ∧
    ((0.5 : ℚ) < 0.9) := by
  constructor
  · rfl
  · norm_num

/-- C6 amended: on the integrated search endpoint, `limit = 0` violates the
declared `ge=1` bound and is rejected with a validation error (it does not
return an empty result list), `limit = 201` violates `le=200` and is
rejected, and the empty query violates `min_length=2` and is rejected. -/
theorem search_endpoint_bounds (l : Loader) (q : String) (limit : ℤ) :
    search_endpoint l q 0 = .error .validation ∧
    search_endpoint l q 201 = .error .validation ∧
    search_endpoint l "" limit = .error .validation := by
  refine ⟨?_, ?_, ?_⟩
  · unfold search_endpoint
    rw [if_neg]
    rintro ⟨-, h, -⟩
    omega
  · unfold search_endpoint
    rw [if_neg]
    rintro ⟨-, -, h⟩
    omega
  · unfold search_endpoint
    rw [if_neg]
    rintro ⟨h, -, -⟩
    have hlen : "".length = 0 := rfl
    omega

/-- C6 counterexample: `limit = 0` on the integrated search endpoint yields a
validation rejection, not an empty result list. -/
theorem search_limit_zero_is_validation_error :
    search_endpoint Fixtures.heroLoader "aspirin" 0 =
      .error .validation := rfl

end ClaimsSearch

section ClaimsIndexes

open DataLoader

/-- Lookup after a dict assignment: the assigned key reads the new value,
every other key is unchanged. -/
theorem dictFind_insert {β : Type} (k k2 : String) (v : β) :
    ∀ d : List (String × β),
      dictFind? (dictInsert d k v) k2 =
        if k2 = k then some v else dictFind? d k2 := by
  intro d
  induction d with
  | nil =>
    by_cases h : k2 = k
    · subst h
      simp [dictInsert, dictFind?]
    · simp [dictInsert, dictFind?, h, Ne.symm h]
  | cons p rest ih =>
    obtain ⟨k0, v0⟩ := p
    by_cases h0 : k0 = k
    · subst h0
      by_cases h : k2 = k0
      · subst h
        simp [dictInsert, dictFind?]
      · simp [dictInsert, dictFind?, h, Ne.symm h]
    · by_cases h : k0 = k2
      · subst h
        have hne : ¬(k0 = k) := h0
        simp [dictInsert, dictFind?, hne, Ne.symm hne]
      · simp [dictInsert, dictFind?, h0, h, ih]

/-- Bucket lookup after `multiInsert`: the touched key gains `x` at the end,
other keys are unchanged. -/
theorem dictGetD_multiInsert (k k2 : String) (x : BroadDrug)
    (d : List (String × List BroadDrug)) :
    dictGetD (multiInsert d k x) k2 [] =
      if k2 = k then dictGetD d k [] ++ [x] else dictGetD d k2 [] := by
  unfold multiInsert dictGetD
  rw [dictFind_insert]
  by_cases h : k2 = k
  · subst h
    cases hf : dictFind? d k2 <;> simp [hf]
  · simp [h]

/-- Folding `multiInsert` of one drug over a duplicate-free key list appends
the drug to exactly the buckets of those keys. -/
theorem dictGetD_keys_foldl (x : BroadDrug) (k : String) :
    ∀ (ks : List String) (idx : List (String × List BroadDrug)), ks.Nodup →
      dictGetD (ks.foldl (fun idx k2 => multiInsert idx k2 x) idx) k [] =
        dictGetD idx k [] ++ (if k ∈ ks then [x] else []) := by
  intro ks
  induction ks with
  | nil =>
    intro idx _
    simp
  | cons k2 ks ih =>
    intro idx hnd
    have hnd2 := List.nodup_cons.mp hnd
    show dictGetD (ks.foldl (fun idx k2 => multiInsert idx k2 x)
      (multiInsert idx k2 x)) k [] = _
    rw [ih (multiInsert idx k2 x) hnd2.2]
    rw [dictGetD_multiInsert]
    by_cases h : k = k2
    · subst h
      have hnotin : k ∉ ks := hnd2.1
      simp [hnotin]
    · simp [h, List.mem_cons, Ne.symm h]

/-- Folding the per-drug key fold over the corpus appends each drug, in
corpus order, to the buckets of its keys. -/
theorem dictGetD_corpus_foldl (keysOf : BroadDrug → List String) (k : String) :
    ∀ (xs : List BroadDrug) (idx : List (String × List BroadDrug)),
      (∀ x ∈ xs, (keysOf x).Nodup) →
      dictGetD (xs.foldl
          (fun idx x => (keysOf x).foldl (fun idx k2 => multiInsert idx k2 x) idx)
          idx) k [] =
        dictGetD idx k [] ++ xs.filter (fun x => decide (k ∈ keysOf x)) := by
  intro xs
  induction xs with
  | nil =>
    intro idx _
    simp
  | cons x xs ih =>
    intro idx hnd
    show dictGetD (xs.foldl _ ((keysOf x).foldl
      (fun idx k2 => multiInsert idx k2 x) idx)) k [] = _
    rw [ih _ (fun y hy => hnd y (List.mem_cons_of_mem x hy))]
    rw [dictGetD_keys_foldl x k (keysOf x) idx (hnd x (List.mem_cons_self x xs))]
    rw [List.filter_cons]
    by_cases h : k ∈ keysOf x
    · simp [h, List.append_assoc]
    · simp [h]

/-- Bucket lookup in the generic index builder is the corpus filtered to the
drugs listing the key, in corpus order. -/
theorem dictGetD_buildMultiIndex (keysOf : BroadDrug → List String)
    (xs : List BroadDrug) (k : String) (hnd : ∀ x ∈ xs, (keysOf x).Nodup) :
    dictGetD (buildMultiIndex keysOf xs) k [] =
      xs.filter (fun x => decide (k ∈ keysOf x)) := by
  unfold buildMultiIndex
  rw [dictGetD_corpus_foldl keysOf k xs [] hnd]
  rfl

/-- The mechanism index is the generic builder applied to `moaKeys`. -/
theorem buildMoaIndex_eq (drugs : List BroadDrug) :
    buildMoaIndex drugs = buildMultiIndex moaKeys drugs := by
  unfold buildMoaIndex buildMultiIndex
  apply List.foldl_ext
  intro idx d _
  by_cases h : d.moa ≠ ""
  · simp [moaKeys, h]
  · simp [moaKeys, h]

/-- The per-drug loop over one pipe-split target string, rephrased as a fold
over the drug's stripped nonempty keys. -/
theorem target_inner_foldl (d : BroadDrug) :
    ∀ (parts : List String) (idx : List (String × List BroadDrug)),
      parts.foldl
          (fun idx t =>
            let t2 := strTrim t
            if t2 ≠ "" then multiInsert idx t2 d else idx)
          idx =
        ((parts.map strTrim).filter (fun t => t ≠ "")).foldl
          (fun idx k2 => multiInsert idx k2 d) idx := by
  intro parts
  induction parts with
  | nil =>
    intro idx
    rfl
  | cons t ts ih =>
    intro idx
    by_cases h : strTrim t ≠ ""
    · simp only [List.foldl_cons, List.map_cons, List.filter_cons]
      rw [if_pos h, if_pos (by simpa using h)]
      exact ih _
    · simp only [List.foldl_cons, List.map_cons, List.filter_cons]
      rw [if_neg h, if_neg (by simpa using h)]
      exact ih _

/-- The target index is the generic builder applied to `targetKeys`. -/
theorem buildTargetIndex_eq (drugs : List BroadDrug) :
    buildTargetIndex drugs = buildMultiIndex targetKeys drugs := by
  unfold buildTargetIndex buildMultiIndex
  apply List.foldl_ext
  intro idx d _
  by_cases h : d.target ≠ ""
  · rw [if_pos h]
    exact target_inner_foldl d (splitPipe d.target) idx
  · rw [if_neg h]
    have h2 : d.target = "" := not_not.mp h
    have hkeys : targetKeys d = [] := by
      unfold targetKeys
      rw [h2]
      rfl
    rw [hkeys]
    rfl

end ClaimsIndexes

section ClaimsIndexMain

open DataLoader IntegratedApi

/-- C8 amended: the target index pipe-splits each drug's target string,
trims whitespace, and keys the bucket by the resulting symbol with its
original case preserved (not uppercased); every key maps to the ordered
list of drugs that list it, and a key is present exactly when some drug
lists it.  (Stated for drugs whose stripped target lists are duplicate-free,
as a drug repeating a target would be filed once per occurrence.) -/
theorem target_index_trims_splits_preserves_case
    (drugs : List BroadDrug) (k : String)
    (hnd : ∀ d ∈ drugs, (targetKeys d).Nodup) :
    dictGetD (buildTargetIndex drugs) k [] =
      drugs.filter (fun d => decide (k ∈ targetKeys d)) ∧
    (dictGetD (buildTargetIndex drugs) k [] ≠ [] ↔
      ∃ d ∈ drugs, k ∈ targetKeys d) := by
  have h1 : dictGetD (buildTargetIndex drugs) k [] =
      drugs.filter (fun d => decide (k ∈ targetKeys d)) := by
    rw [buildTargetIndex_eq]
    exact dictGetD_buildMultiIndex targetKeys drugs k hnd
  refine ⟨h1, ?_⟩
  rw [h1, ne_eq, List.filter_eq_nil_iff]
  push_neg
  simp

/-- Witness for C8 at a one-drug corpus whose target string is
`" egfr | ALK"`. -/
theorem target_index_trims_splits_preserves_case_witness :
    dictGetD (buildTargetIndex [Fixtures.egfrDrug]) "egfr" [] =
      [Fixtures.egfrDrug].filter
        (fun d => decide ("egfr" ∈ targetKeys d)) ∧
    (dictGetD (buildTargetIndex [Fixtures.egfrDrug]) "egfr" [] ≠ [] ↔
      ∃ d ∈ [Fixtures.egfrDrug], "egfr" ∈ targetKeys d) :=
  target_index_trims_splits_preserves_case [Fixtures.egfrDrug] "egfr"
    (by
      intro d hd
      rw [List.mem_singleton] at hd
      subst hd
      decide)

/-- C8 counterexample: a drug listing the target `" egfr "` is indexed under
the trimmed, original-case key `"egfr"`; the uppercase key `"EGFR"` the claim
promises is absent. -/
theorem target_index_key_not_uppercased :
    dictFind? (buildTargetIndex [Fixtures.egfrDrug]) "egfr" =
      some [Fixtures.egfrDrug] ∧
    dictFind? (buildTargetIndex [Fixtures.egfrDrug]) "EGFR" = none ∧
    ("egfr" : String) ≠ "EGFR" := ⟨rfl, rfl, by decide⟩

/-- C9 amended: the mechanism-lookup endpoint returns the drugs whose
mechanism of action is exactly equal to the given string (dict lookup, not a
substring scan), in corpus order; when no drug's `moa` equals it, the result
is empty and the endpoint returns NotFound. -/
theorem mechanism_lookup_is_exact_match (l : Loader) (moa : String)
    (limit : ℤ) (hmoa : moa ≠ "") (hlim : 1 ≤ limit ∧ limit ≤ 200) :
    get_drugs_by_mechanism l moa =
      l.broad_drugs.filter (fun d => decide (d.moa = moa)) ∧
    (l.broad_drugs.filter (fun d => decide (d.moa = moa)) = [] →
      mechanism_endpoint l moa limit = .error .notFound) ∧
    (∀ d ∈ l.broad_drugs, d.moa = moa → d ∈ get_drugs_by_mechanism l moa) := by
  have hnd : ∀ d ∈ l.broad_drugs, (moaKeys d).Nodup := by
    intro d _
    unfold moaKeys
    by_cases h : d.moa ≠ "" <;> simp [h]
  have hpred : ∀ d ∈ l.broad_drugs,
      (decide (moa ∈ moaKeys d)) = (decide (d.moa = moa)) := by
    intro d _
    unfold moaKeys
    by_cases h : d.moa ≠ ""
    · simp only [if_pos h, List.mem_singleton]
      simp [eq_comm]
    · have h2 : d.moa = "" := not_not.mp h
      have h3 : ¬(d.moa = moa) := by
        rw [h2]
        exact fun he => hmoa he.symm
      simp [h, h3]
  have h1 : get_drugs_by_mechanism l moa =
      l.broad_drugs.filter (fun d => decide (d.moa = moa)) := by
    unfold get_drugs_by_mechanism
    rw [buildMoaIndex_eq,
      dictGetD_buildMultiIndex moaKeys l.broad_drugs moa hnd]
    exact List.filter_congr hpred
  refine ⟨h1, ?_, ?_⟩
  · intro hempty
    have hnone : get_drugs_by_mechanism l moa = [] := by
      rw [h1, hempty]
    unfold mechanism_endpoint
    rw [if_pos hlim]
    simp [hnone]
  · intro d hd hmoa_eq
    rw [h1]
    exact List.mem_filter.mpr ⟨hd, by simp [hmoa_eq]⟩

/-- Witness for C9 at the one-drug corpus with mechanism `"CDK inhibitor"`. -/
theorem mechanism_lookup_is_exact_match_witness :
    get_drugs_by_mechanism Fixtures.moaLoader "CDK inhibitor" =
      Fixtures.moaLoader.broad_drugs.filter
        (fun d => decide (d.moa = "CDK inhibitor")) ∧
    (Fixtures.moaLoader.broad_drugs.filter
        (fun d => decide (d.moa = "CDK inhibitor")) = [] →
      mechanism_endpoint Fixtures.moaLoader "CDK inhibitor" 50 =
        .error .notFound) ∧
    (∀ d ∈ Fixtures.moaLoader.broad_drugs, d.moa = "CDK inhibitor" →
      d ∈ get_drugs_by_mechanism Fixtures.moaLoader "CDK inhibitor") :=
  mechanism_lookup_is_exact_match Fixtures.moaLoader "CDK inhibitor" 50
    (by decide) (by decide)

/-- C9 counterexample: the drug's `moa` string `"CDK inhibitor"` strictly
contains the query `"CDK"`, yet the lookup for `"CDK"` returns nothing and
the endpoint answers NotFound, while the exact string is found — the
endpoint does not do substring matching. -/
theorem mechanism_substring_not_matched :
    containsStr Fixtures.cdkDrug.moa "CDK" = true ∧
    Fixtures.cdkDrug.moa ≠ "CDK" ∧
    get_drugs_by_mechanism Fixtures.moaLoader "CDK" = [] ∧
    mechanism_endpoint Fixtures.moaLoader "CDK" 50 = .error .notFound ∧
    mechanism_endpoint Fixtures.moaLoader "CDK inhibitor" 50 =
      .ok ⟨"CDK inhibitor", 1, [mkMechanismEntry Fixtures.cdkDrug]⟩ :=
  ⟨rfl, by decide, rfl, rfl, rfl⟩

end ClaimsIndexMain
